import Mathlib

/-!
Verification of `png_to_c.py`, a converter from a binary file to a C header
containing the bytes as a hexadecimal array literal.

Text is modelled as `List Char`; a Python `f.write(s)` sequence is modelled by
appending the written pieces in order.  Bytes are modelled as `Nat` (with the
hypothesis `b < 256` where the two-digit rendering matters, since Python's
`bytes` elements always satisfy it).
-/

/-- Emitted text, modelled as a sequence of characters. -/
abbrev Text := List Char

/-- The characters of a string literal. -/
def lit (s : String) : Text := s.data

/-- The uppercase hexadecimal digit for a value `0..15`, as produced by
Python's `X` format specifier. -/
def hexDigit (n : Nat) : Char :=
  if n < 10 then Char.ofNat (48 + n) else Char.ofNat (55 + n)

/-- `f'0x{b:02X}'` (line 29 of `png_to_c.py`): the byte as `0x` followed by
exactly two uppercase hexadecimal digits. -/
def hexByte (b : Nat) : Text :=
  lit "0x" ++ [hexDigit (b / 16), hexDigit (b % 16)]

/-- One iteration of the byte loop (lines 27-35 of `png_to_c.py`) at index
`i`, where `N = len(data)` and `b = data[i]`: optional 4-space row indent,
the hex rendering of the byte, a comma unless this is the last byte, then a
newline at a row end (`i % 16 == 15`) and a space otherwise. -/
def emitByte (N i b : Nat) : Text :=
  (if i % 16 = 0 then lit "    " else []) ++
  hexByte b ++
  (if i < N - 1 then lit "," else []) ++
  (if i % 16 = 15 then lit "\n" else lit " ")

/-- The loop `for i in range(len(data))` (line 26 of `png_to_c.py`),
as recursion over the suffix of `data` that starts at index `i`;
`N` is `len(data)`. -/
def byteLoop (N : Nat) (i : Nat) : List Nat → Text
  | [] => []
  | b :: rest => emitByte N i b ++ byteLoop N (i + 1) rest

/-- Lines 26-37 of `png_to_c.py`: the array body between the opening
`unsigned char name[] = {`-line and the closing `};` — the byte loop
followed by one extra newline when `len(data) % 16 != 0`. -/
def arrayBody (data : List Nat) : Text :=
  byteLoop data.length 0 data ++ (if data.length % 16 ≠ 0 then lit "\n" else [])

/-- `asset_name.upper()` (line 17 of `png_to_c.py`), modelled characterwise
for ASCII identifiers. -/
def upper_name (asset_name : Text) : Text := asset_name.map Char.toUpper

/-- `asset_name.lower()` (line 18 of `png_to_c.py`). -/
def var_name (asset_name : Text) : Text := asset_name.map Char.toLower

/-- `f'{asset_name.lower()}_len'` (line 19 of `png_to_c.py`). -/
def len_name (asset_name : Text) : Text := var_name asset_name ++ lit "_len"

/-- The complete output document (lines 21-39 of `png_to_c.py`): the
concatenation of every string written to the output file, in order. -/
def emitDoc (data : List Nat) (asset_name : Text) : Text :=
  lit "#ifndef " ++ upper_name asset_name ++ lit "_H\n" ++
  lit "#define " ++ upper_name asset_name ++ lit "_H\n\n" ++
  lit "unsigned char " ++ var_name asset_name ++ lit "[] = \x7b\n" ++
  arrayBody data ++
  lit "\x7d;\nunsigned int " ++ len_name asset_name ++ lit " = sizeof(" ++
  var_name asset_name ++ lit ");\n\n#endif\n"

/-- Observable events of one program run. -/
inductive Ev where
  | stdout (s : Text)
  | stderr (s : Text)
  | readInput (path : Text)
  | wroteOutput (path : Text) (content : Text)
  | exited (code : Nat)
  | ioError
deriving DecidableEq

/-- The usage string printed on a wrong argument count (line 7 of
`png_to_c.py`); Python's `print` sends it to standard output. -/
def usageMsg : Text :=
  lit "Usage: python3 png_to_c.py <png_file> <output_h_file> <asset_name>"

/-- Whole-program run (lines 6-39 of `png_to_c.py`) as the trace of its
observable events.  `argv` includes the program name (so 3 positional
arguments mean `argv.length = 4`); `inputOf` gives the readable files'
contents; `outWritable` says whether a path can be opened for writing.
An unreadable input or unwritable output raises an uncaught `IOError`,
modelled by a terminal `Ev.ioError` event (non-zero exit, no cleanup). -/
def run (argv : List Text) (inputOf : Text → Option (List Nat))
    (outWritable : Text → Bool) : List Ev :=
  if argv.length ≠ 4 then [Ev.stdout usageMsg, Ev.exited 1]
  else
    let png_file := argv.getD 1 []
    let h_file := argv.getD 2 []
    let asset_name := argv.getD 3 []
    match inputOf png_file with
    | none => [Ev.ioError]
    | some data =>
      Ev.readInput png_file ::
      (if outWritable h_file then
        [Ev.wroteOutput h_file (emitDoc data asset_name), Ev.exited 0]
      else [Ev.ioError])

/-- `true` exactly on events written to the error stream. -/
def isStderrEv : Ev → Bool
  | Ev.stderr _ => true
  | _ => false

/-- The contents written to the output file during a run, in order. -/
def writtenContents (trace : List Ev) : List Text :=
  trace.filterMap fun e =>
    match e with
    | Ev.wroteOutput _ c => some c
    | _ => none

/-- The value of an uppercase-hex character, as used to read a `0xNN`
token back; `none` on any character that is not an uppercase hex digit. -/
def hexVal (c : Char) : Option Nat :=
  if 48 ≤ c.toNat ∧ c.toNat ≤ 57 then some (c.toNat - 48)
  else if 65 ≤ c.toNat ∧ c.toNat ≤ 70 then some (c.toNat - 55)
  else none

/-- Reads the hexadecimal byte values back out of emitted text: scan left to
right, and decode every occurrence of `0x` followed by two hex digits. -/
def parseHexBytes : Text → List Nat
  | '0' :: 'x' :: a :: b :: rest =>
    (match hexVal a, hexVal b with
     | some hi, some lo => [16 * hi + lo]
     | _, _ => []) ++ parseHexBytes rest
  | _ :: rest => parseHexBytes rest
  | [] => []

/-! Helper lemmas. -/

lemma lit_spaces : lit "    " = ' ' :: ' ' :: ' ' :: ' ' :: [] := rfl

lemma lit_comma : lit "," = [','] := rfl

lemma lit_space : lit " " = [' '] := rfl

lemma lit_newline : lit "\n" = ['\n'] := rfl

lemma lit_commaSpace : lit ", " = [',', ' '] := rfl

lemma lit_commaNewline : lit ",\n" = [',', '\n'] := rfl

lemma parseHexBytes_space (l : Text) : parseHexBytes (' ' :: l) = parseHexBytes l := rfl

lemma parseHexBytes_comma (l : Text) : parseHexBytes (',' :: l) = parseHexBytes l := rfl

lemma parseHexBytes_newline (l : Text) : parseHexBytes ('\n' :: l) = parseHexBytes l := rfl

lemma hexVal_hexDigit : ∀ n, n < 16 → hexVal (hexDigit n) = some n := by decide

lemma hexDigit_mem_upperHex : ∀ n, n < 16 → hexDigit n ∈ lit "0123456789ABCDEF" := by decide

lemma hexDigit_ne_newline : ∀ n, n < 16 → hexDigit n ≠ '\n' := by decide

lemma parseHexBytes_token (a b : Char) (hi lo : Nat) (l : Text)
    (ha : hexVal a = some hi) (hb : hexVal b = some lo) :
    parseHexBytes ('0' :: 'x' :: a :: b :: l) = (16 * hi + lo) :: parseHexBytes l := by
  have h : parseHexBytes ('0' :: 'x' :: a :: b :: l) =
      (match hexVal a, hexVal b with
       | some hi, some lo => [16 * hi + lo]
       | _, _ => []) ++ parseHexBytes l := rfl
  rw [h, ha, hb]
  rfl

lemma parseHexBytes_hexByte (b : Nat) (hb : b < 256) (t : Text) :
    parseHexBytes (hexByte b ++ t) = b :: parseHexBytes t := by
  have hdiv := hexVal_hexDigit (b / 16) (by omega)
  have hmod := hexVal_hexDigit (b % 16) (by omega)
  have h : hexByte b ++ t = '0' :: 'x' :: hexDigit (b / 16) :: hexDigit (b % 16) :: t := rfl
  rw [h, parseHexBytes_token _ _ _ _ _ hdiv hmod, Nat.div_add_mod]

lemma parseHexBytes_byteLoop (N : Nat) (l : List Nat) :
    ∀ (i : Nat) (t : Text), (∀ b ∈ l, b < 256) →
      parseHexBytes (byteLoop N i l ++ t) = l ++ parseHexBytes t := by
  induction l with
  | nil => intro i t _; simp [byteLoop]
  | cons b rest ih =>
    intro i t hb
    have hb256 : b < 256 := hb b (by simp)
    have key := ih (i + 1) t (fun b' h => hb b' (by simp [h]))
    simp only [byteLoop, emitByte, List.append_assoc]
    by_cases h0 : i % 16 = 0 <;> by_cases hc : i < N - 1 <;> by_cases h15 : i % 16 = 15 <;>
      simp [h0, hc, h15, lit_spaces, lit_comma, lit_space, lit_newline,
        parseHexBytes_space, parseHexBytes_comma, parseHexBytes_newline,
        parseHexBytes_hexByte b hb256, key]

lemma count_newline_emitByte (N i b : Nat) (hb : b < 256) :
    (emitByte N i b).count '\n' = if i % 16 = 15 then 1 else 0 := by
  have h1 := hexDigit_ne_newline (b / 16) (by omega)
  have h2 := hexDigit_ne_newline (b % 16) (by omega)
  unfold emitByte hexByte
  by_cases h0 : i % 16 = 0 <;> by_cases hc : i < N - 1 <;> by_cases h15 : i % 16 = 15 <;>
    simp [h0, hc, h15, lit_spaces, lit_comma, lit_space, lit_newline, lit,
      List.count_append, List.count_cons, h1, h2]

lemma count_newline_byteLoop (N : Nat) (l : List Nat) :
    ∀ i : Nat, (∀ b ∈ l, b < 256) →
      (byteLoop N i l).count '\n' = (i + l.length) / 16 - i / 16 := by
  induction l with
  | nil => intro i _; simp [byteLoop]
  | cons b rest ih =>
    intro i hb
    have hkey := ih (i + 1) (fun b' h => hb b' (by simp [h]))
    simp only [byteLoop, List.count_append, count_newline_emitByte N i b (hb b (by simp)),
      hkey, List.length_cons]
    split_ifs with h <;> omega

/-! Claim theorems. -/

/-- C1: for every input byte sequence (length `N ≥ 0`) — the asset name does
not enter the array body — parsing the hexadecimal byte values back out of
the emitted array body reproduces the original byte sequence exactly: same
values, same order, same length. -/
theorem c1_roundTrip (data : List Nat) (hdata : ∀ b ∈ data, b < 256) :
    parseHexBytes (arrayBody data) = data := by
  unfold arrayBody
  rw [parseHexBytes_byteLoop data.length data 0 _ hdata]
  have h : parseHexBytes (if data.length % 16 ≠ 0 then lit "\n" else []) = [] := by
    split <;> rfl
  rw [h, List.append_nil]

/-- C1 witness: the round trip at the concrete input `[0, 255, 16]`. -/
theorem c1_roundTrip_witness : parseHexBytes (arrayBody [0, 255, 16]) = [0, 255, 16] :=
  c1_roundTrip [0, 255, 16] (by decide)

/-- C2 counterexample: for empty input the code emits no extra newline
(`0 % 16 = 0`, so the guard on line 36 is false) — the array body is empty,
not the single empty line the claim requires. -/
theorem c2_counterexample : arrayBody [] = [] ∧ arrayBody [] ≠ lit "\n" := by decide

/-- C2 (amended): one additional newline is emitted after the byte loop
exactly when `N mod 16 ≠ 0`; since `0 mod 16 = 0` this never fires for
`N = 0`, so for empty input the array body is empty and the document shows
the shape `... = \x7b` newline `\x7d;` with nothing in between. -/
theorem c2_raggedNewline :
    (∀ data : List Nat, data.length % 16 ≠ 0 →
      arrayBody data = byteLoop data.length 0 data ++ lit "\n") ∧
    (∀ data : List Nat, data.length % 16 = 0 →
      arrayBody data = byteLoop data.length 0 data) ∧
    arrayBody [] = [] ∧
    emitDoc [] (lit "x") =
      lit "#ifndef X_H\n#define X_H\n\nunsigned char x[] = \x7b\n\x7d;\nunsigned int x_len = sizeof(x);\n\n#endif\n" := by
  refine ⟨?_, ?_, by decide, by decide⟩
  · intro data h
    unfold arrayBody
    simp [h]
  · intro data h
    unfold arrayBody
    simp [h]

/-- C2 witness: the ragged rule at a one-byte input and at a 16-byte input. -/
theorem c2_raggedNewline_witness :
    arrayBody [7] = byteLoop 1 0 [7] ++ lit "\n" ∧
    arrayBody (List.replicate 16 3) = byteLoop 16 0 (List.replicate 16 3) := by
  constructor
  · exact c2_raggedNewline.1 [7] (by decide)
  · have h := c2_raggedNewline.2.1 (List.replicate 16 3) (by decide)
    simpa using h

/-- C3: a comma follows the value exactly when `i < N - 1`, then a newline
is emitted exactly when `i mod 16 = 15` and a single space otherwise; so
consecutive values on one row are separated by the two characters `,` `space`
and a row boundary is a comma followed by a bare newline with no space. -/
theorem c3_separators (N i b : Nat) (rest : List Nat) :
    (i < N - 1 → i % 16 ≠ 15 →
      byteLoop N i (b :: rest) =
        (if i % 16 = 0 then lit "    " else []) ++ hexByte b ++ lit ", " ++
          byteLoop N (i + 1) rest) ∧
    (i < N - 1 → i % 16 = 15 →
      byteLoop N i (b :: rest) =
        (if i % 16 = 0 then lit "    " else []) ++ hexByte b ++ lit ",\n" ++
          byteLoop N (i + 1) rest) ∧
    (¬ i < N - 1 → i % 16 ≠ 15 →
      byteLoop N i (b :: rest) =
        (if i % 16 = 0 then lit "    " else []) ++ hexByte b ++ lit " " ++
          byteLoop N (i + 1) rest) ∧
    (¬ i < N - 1 → i % 16 = 15 →
      byteLoop N i (b :: rest) =
        (if i % 16 = 0 then lit "    " else []) ++ hexByte b ++ lit "\n" ++
          byteLoop N (i + 1) rest) := by
  refine ⟨fun hc h15 => ?_, fun hc h15 => ?_, fun hc h15 => ?_, fun hc h15 => ?_⟩ <;>
    simp [byteLoop, emitByte, hc, h15, lit_comma, lit_space, lit_newline,
      lit_commaSpace, lit_commaNewline, List.append_assoc]

/-- C3 witness: the four separator shapes at concrete indices and lengths. -/
theorem c3_separators_witness :
    byteLoop 3 0 [9] = (if 0 % 16 = 0 then lit "    " else []) ++ hexByte 9 ++ lit ", " ++ byteLoop 3 1 [] ∧
    byteLoop 17 15 [9] = (if 15 % 16 = 0 then lit "    " else []) ++ hexByte 9 ++ lit ",\n" ++ byteLoop 17 16 [] ∧
    byteLoop 1 0 [9] = (if 0 % 16 = 0 then lit "    " else []) ++ hexByte 9 ++ lit " " ++ byteLoop 1 1 [] ∧
    byteLoop 16 15 [9] = (if 15 % 16 = 0 then lit "    " else []) ++ hexByte 9 ++ lit "\n" ++ byteLoop 16 16 [] :=
  ⟨(c3_separators 3 0 9 []).1 (by decide) (by decide),
   (c3_separators 17 15 9 []).2.1 (by decide) (by decide),
   (c3_separators 1 0 9 []).2.2.1 (by decide) (by decide),
   (c3_separators 16 15 9 []).2.2.2 (by decide) (by decide)⟩

/-- C4: at the start of a row (`i mod 16 = 0`) exactly the four leading
space characters are emitted first, and every byte value is rendered as `0x`
followed by exactly two uppercase hexadecimal digits, for all 256 byte
values. -/
theorem c4_rendering (N i b : Nat) (hb : b < 256) :
    ∃ d1 d2 sep, emitByte N i b =
        (if i % 16 = 0 then lit "    " else []) ++ ('0' :: 'x' :: [d1, d2]) ++ sep ∧
      d1 ∈ lit "0123456789ABCDEF" ∧ d2 ∈ lit "0123456789ABCDEF" := by
  refine ⟨hexDigit (b / 16), hexDigit (b % 16),
    (if i < N - 1 then lit "," else []) ++ (if i % 16 = 15 then lit "\n" else lit " "),
    ?_, hexDigit_mem_upperHex _ (by omega), hexDigit_mem_upperHex _ (by omega)⟩
  simp [emitByte, hexByte, lit, List.append_assoc]

/-- C4 witness: the rendering shape at `i = 0`, `b = 255`. -/
theorem c4_rendering_witness :
    ∃ d1 d2 sep, emitByte 1 0 255 =
        (if 0 % 16 = 0 then lit "    " else []) ++ ('0' :: 'x' :: [d1, d2]) ++ sep ∧
      d1 ∈ lit "0123456789ABCDEF" ∧ d2 ∈ lit "0123456789ABCDEF" :=
  c4_rendering 1 0 255 (by decide)

/-- C5: for every nonempty byte input the array body contains exactly
`ceil(N/16)` newlines, i.e. consists of exactly `ceil(N/16)` data lines
(every data line ends with its newline); in particular for `N` a nonzero
multiple of 16 the count is `N/16`, because no extra trailing newline is
emitted after the last full row (second conjunct). -/
theorem c5_rowCount (data : List Nat) (hpos : 0 < data.length)
    (hdata : ∀ b ∈ data, b < 256) :
    (arrayBody data).count '\n' = (data.length + 15) / 16 ∧
    (data.length % 16 = 0 → arrayBody data = byteLoop data.length 0 data) := by
  constructor
  · unfold arrayBody
    rw [List.count_append, count_newline_byteLoop data.length data 0 hdata]
    split_ifs with h
    · simp [lit_newline, List.count_cons, List.count_nil]
      omega
    · simp only [List.count_nil]
      omega
  · intro h
    unfold arrayBody
    simp [h]

/-- C5 witness: a 16-byte input yields exactly one data line. -/
theorem c5_rowCount_witness : (arrayBody (List.replicate 16 0)).count '\n' = 1 := by
  have h := (c5_rowCount (List.replicate 16 0) (by decide) (by decide)).1
  simpa using h

set_option maxRecDepth 4000 in
/-- C6 counterexample: for input `[0x00]` and asset name `x` the claimed
character sequence (with nothing between `0x00` and its newline) does not
occur in the emitted output — the code writes a space after the value
before the ragged newline. -/
theorem c6_counterexample :
    ¬ List.IsInfix
      (lit "unsigned char x[] = \x7b\n    0x00\n\x7d;\nunsigned int x_len = sizeof(x);")
      (emitDoc [0] (lit "x")) := by decide

set_option maxRecDepth 4000 in
/-- C6 (amended): for input `[0x00]` and asset name `x` the output contains
`unsigned char x[] = \x7b` newline `    0x00` space newline `\x7d;` newline
`unsigned int x_len = sizeof(x);` — a single space sits between `0x00` and
its newline (the loop's else-branch space, then the ragged newline).  The
second conjunct pins down the whole document. -/
theorem c6_scenarioA :
    List.IsInfix
      (lit "unsigned char x[] = \x7b\n    0x00 \n\x7d;\nunsigned int x_len = sizeof(x);")
      (emitDoc [0] (lit "x")) ∧
    emitDoc [0] (lit "x") =
      lit "#ifndef X_H\n#define X_H\n\nunsigned char x[] = \x7b\n    0x00 \n\x7d;\nunsigned int x_len = sizeof(x);\n\n#endif\n" := by
  constructor
  · decide
  · decide

/-- C7: the guard token is `upper(asset_name) ++ "_H"` as it appears at the
head of the document, the array variable is `lower(asset_name)`, and the
length variable is the array variable plus `_len`; all three are functions
of the asset name alone, e.g. `Sprite` gives `SPRITE_H`, `sprite`,
`sprite_len`. -/
theorem c7_names (a : Text) (data : List Nat) :
    upper_name a = a.map Char.toUpper ∧
    var_name a = a.map Char.toLower ∧
    len_name a = var_name a ++ lit "_len" ∧
    (∃ t, emitDoc data a =
      lit "#ifndef " ++ (upper_name a ++ lit "_H") ++ lit "\n" ++ t) ∧
    upper_name (lit "Sprite") = lit "SPRITE" ∧
    var_name (lit "Sprite") = lit "sprite" ∧
    len_name (lit "Sprite") = lit "sprite_len" ∧
    emitDoc [] (lit "Sprite") =
      lit "#ifndef SPRITE_H\n#define SPRITE_H\n\nunsigned char sprite[] = \x7b\n\x7d;\nunsigned int sprite_len = sizeof(sprite);\n\n#endif\n" := by
  refine ⟨rfl, rfl, rfl, ?_, by decide, by decide, by decide, by decide⟩
  refine ⟨lit "#define " ++ upper_name a ++ lit "_H\n\n" ++ lit "unsigned char " ++
    var_name a ++ lit "[] = \x7b\n" ++ arrayBody data ++ lit "\x7d;\nunsigned int " ++
    len_name a ++ lit " = sizeof(" ++ var_name a ++ lit ");\n\n#endif\n", ?_⟩
  have hsplit : lit "_H\n" = lit "_H" ++ lit "\n" := rfl
  simp only [emitDoc, hsplit, List.append_assoc]

/-- C8 counterexample: on a wrong argument count the usage message goes to
standard output (Python's bare `print`), and nothing at all is written to
the error stream — contradicting the claimed error-stream print. -/
theorem c8_counterexample :
    (run [lit "png_to_c.py"] (fun _ => none) (fun _ => true)).any isStderrEv = false ∧
    Ev.stdout usageMsg ∈ run [lit "png_to_c.py"] (fun _ => none) (fun _ => true) ∧
    Ev.stderr usageMsg ∉ run [lit "png_to_c.py"] (fun _ => none) (fun _ => true) := by
  decide

/-- C8 (amended): whenever the argument count differs from exactly 3
positional arguments (`argv.length ≠ 4` counting the program name), the
run consists of exactly the usage message printed to standard output and
an exit with code 1 — in particular no file is read, created or modified. -/
theorem c8_usageError (argv : List Text) (inputOf : Text → Option (List Nat))
    (outWritable : Text → Bool) (h : argv.length ≠ 4) :
    run argv inputOf outWritable = [Ev.stdout usageMsg, Ev.exited 1] := by
  simp [run, h]

/-- C8 witness: a one-argument invocation. -/
theorem c8_usageError_witness :
    run [lit "png_to_c.py"] (fun _ => none) (fun _ => true) =
      [Ev.stdout usageMsg, Ev.exited 1] :=
  c8_usageError [lit "png_to_c.py"] (fun _ => none) (fun _ => true) (by decide)

/-- C9: with 3 positional arguments, the run raises `IOError` exactly when
the input cannot be read or the output cannot be written (the error is the
terminal event: unhandled, no retry, no cleanup); an unreadable input stops
the run before any output event, leaving the output path untouched; and
when both sides succeed the run reads the input once and writes the
complete document. -/
theorem c9_ioBehaviour (p png h a : Text) (data : List Nat)
    (inputOf : Text → Option (List Nat)) (outWritable : Text → Bool) :
    (Ev.ioError ∈ run [p, png, h, a] inputOf outWritable ↔
      (inputOf png = none ∨ outWritable h = false)) ∧
    (inputOf png = none → run [p, png, h, a] inputOf outWritable = [Ev.ioError]) ∧
    (inputOf png = some data → outWritable h = true →
      run [p, png, h, a] inputOf outWritable =
        [Ev.readInput png, Ev.wroteOutput h (emitDoc data a), Ev.exited 0]) := by
  refine ⟨?_, ?_, ?_⟩
  · cases hio : inputOf png with
    | none => simp [run, hio]
    | some d => cases hw : outWritable h <;> simp [run, hio, hw]
  · intro hio
    simp [run, hio]
  · intro hio hw
    simp [run, hio, hw]

/-- C9 witness: the success case at a concrete environment. -/
theorem c9_ioBehaviour_witness :
    run [lit "p", lit "a.png", lit "a.h", lit "x"] (fun _ => some [0]) (fun _ => true) =
      [Ev.readInput (lit "a.png"),
       Ev.wroteOutput (lit "a.h") (emitDoc [0] (lit "x")),
       Ev.exited 0] :=
  (c9_ioBehaviour (lit "p") (lit "a.png") (lit "a.h") (lit "x") [0]
    (fun _ => some [0]) (fun _ => true)).2.2 rfl rfl

/-- C10: the written output document is a pure function of the input file's
byte contents and the asset name — two runs whose input files hold the same
bytes and whose asset names agree write identical documents, whatever the
paths, the other readable files, or the writability environment are; that
common document is `emitDoc data asset_name`. -/
theorem c10_deterministic (p1 png1 h1 p2 png2 h2 a : Text) (data : List Nat)
    (io1 io2 : Text → Option (List Nat)) (w1 w2 : Text → Bool)
    (hio1 : io1 png1 = some data) (hio2 : io2 png2 = some data)
    (hw1 : w1 h1 = true) (hw2 : w2 h2 = true) :
    writtenContents (run [p1, png1, h1, a] io1 w1) =
      writtenContents (run [p2, png2, h2, a] io2 w2) ∧
    writtenContents (run [p1, png1, h1, a] io1 w1) = [emitDoc data a] := by
  have e1 : run [p1, png1, h1, a] io1 w1 =
      [Ev.readInput png1, Ev.wroteOutput h1 (emitDoc data a), Ev.exited 0] := by
    simp [run, hio1, hw1]
  have e2 : run [p2, png2, h2, a] io2 w2 =
      [Ev.readInput png2, Ev.wroteOutput h2 (emitDoc data a), Ev.exited 0] := by
    simp [run, hio2, hw2]
  rw [e1, e2]
  constructor <;> rfl

/-- C10 witness: two runs with different paths and environments but the
same input bytes and asset name. -/
theorem c10_deterministic_witness :
    writtenContents (run [lit "p", lit "a.png", lit "a.h", lit "x"]
        (fun _ => some [1, 2]) (fun _ => true)) =
      writtenContents (run [lit "q", lit "b.png", lit "b.h", lit "x"]
        (fun _ => some [1, 2]) (fun _ => true)) ∧
    writtenContents (run [lit "p", lit "a.png", lit "a.h", lit "x"]
        (fun _ => some [1, 2]) (fun _ => true)) = [emitDoc [1, 2] (lit "x")] :=
  c10_deterministic (lit "p") (lit "a.png") (lit "a.h") (lit "q") (lit "b.png")
    (lit "b.h") (lit "x") [1, 2] (fun _ => some [1, 2]) (fun _ => some [1, 2])
    (fun _ => true) (fun _ => true) rfl rfl rfl rfl

